import Mathlib

/-!
Shallow embedding of the panel update pipeline of the omnibars repository
(src/panels/clock.rs, custom.rs, pulseaudio.rs, xworkspaces.rs).

Streams are modelled as explicit state machines: each `poll_next` becomes a
pure function from the adapter state and an observation of the environment
(whether a spawned worker has finished, whether a timer fired, which X event
arrived) to the next state and a `Poll` value, exactly mirroring the Rust
control flow.  Durations and instants are natural numbers of nanoseconds.
-/

namespace Omnibars

/-- Result of one `poll_next` call (`std::task::Poll`). -/
inductive Poll (α : Type) : Type where
  | ready (a : α)
  | pending
deriving DecidableEq, Repr

/-! ## Clock panel (src/panels/clock.rs)

`Precision::tick` reads the current local wall-clock time and returns a
`Duration`.  The four impls are translated field-by-field; an instant is a
number of nanoseconds since local midnight (extended past midnight when a
duration is added). -/

def nsPerSec : Nat := 1000000000

def nsPerMin : Nat := 60 * nsPerSec

def nsPerHour : Nat := 60 * nsPerMin

def nsPerDay : Nat := 24 * nsPerHour

/-- `now.hour()` for an instant `t` (ns since midnight). -/
def hourOf (t : Nat) : Nat := t / nsPerHour % 24

/-- `now.minute()` for an instant `t`. -/
def minuteOf (t : Nat) : Nat := t / nsPerMin % 60

/-- `now.second()` for an instant `t`. -/
def secondOf (t : Nat) : Nat := t / nsPerSec % 60

/-- `now.nanosecond()` for an instant `t`. -/
def nanoOf (t : Nat) : Nat := t % nsPerSec

/-- `impl Precision for Days`: `60 * (60 * (24 - now.hour()) + 60 - now.minute())` seconds. -/
def daysTickSecs (hour minute : Nat) : Nat :=
  60 * (60 * (24 - hour) + 60 - minute)

/-- `impl Precision for Hours`: `60 * (60 - now.minute())` seconds. -/
def hoursTickSecs (minute : Nat) : Nat :=
  60 * (60 - minute)

/-- `impl Precision for Minutes`: `60 - now.second()` seconds. -/
def minutesTickSecs (second : Nat) : Nat :=
  60 - second

/-- `impl Precision for Seconds`: `1_000_000_000 - now.nanosecond() % 1_000_000_000` nanoseconds. -/
def secondsTickNs (nanosecond : Nat) : Nat :=
  1000000000 - nanosecond % 1000000000

/-- The four precision types `Days`, `Hours`, `Minutes`, `Seconds`. -/
inductive ClockPrecision : Type where
  | days
  | hours
  | minutes
  | seconds
deriving DecidableEq, Repr

/-- `P::tick()` evaluated at instant `t`, in nanoseconds. -/
def tickNs : ClockPrecision → Nat → Nat
  | .days, t => daysTickSecs (hourOf t) (minuteOf t) * nsPerSec
  | .hours, t => hoursTickSecs (minuteOf t) * nsPerSec
  | .minutes, t => minutesTickSecs (secondOf t) * nsPerSec
  | .seconds, t => secondsTickNs (nanoOf t)

/-- Length in nanoseconds of the rollover unit of each precision. -/
def unitNs : ClockPrecision → Nat
  | .days => nsPerDay
  | .hours => nsPerHour
  | .minutes => nsPerMin
  | .seconds => nsPerSec

/-- The next rollover boundary of a unit strictly after instant `t`. -/
def nextBoundary (unit t : Nat) : Nat := (t / unit + 1) * unit

/-- `ClockStream` state: the stored duration-computing function is passed
separately; the interval is reduced to its deadline instant. -/
structure ClockStreamSt : Type where
  deadline : Nat
deriving DecidableEq, Repr

/-- `ClockStream::poll_next` at current instant `now`: `interval.poll_tick`
is ready exactly when the deadline has passed; on `Ready` the code recomputes
`(self.get_duration)()` and calls `interval.reset_at(Instant::now() + duration)`. -/
def clockPollNext (getDuration : Nat → Nat) (s : ClockStreamSt) (now : Nat) :
    ClockStreamSt × Poll Nat :=
  if s.deadline ≤ now then
    (⟨now + getDuration now⟩, .ready now)
  else
    (s, .pending)

/-! ## Custom panel (src/panels/custom.rs) -/

/-- Observation of `interval.poll_tick` for interval mode. -/
inductive TickObs : Type where
  | fires
  | waits
deriving DecidableEq, Repr

/-- `CustomStream` state: `interval: Option<Interval>` (the interval itself is
opaque) and the `fired` flag. -/
structure CustomStreamSt : Type where
  interval : Option Unit
  fired : Bool
deriving DecidableEq, Repr

/-- `CustomStream::new(interval)`. -/
def customStreamNew (interval : Option Unit) : CustomStreamSt :=
  ⟨interval, false⟩

/-- `CustomStream::poll_next`: in interval mode it maps `poll_tick` through
`Some`; with no interval it fires once, sets `fired`, and is `Pending` forever
after. -/
def customPollNext (s : CustomStreamSt) (obs : TickObs) :
    CustomStreamSt × Poll (Option Unit) :=
  match s.interval with
  | some _ =>
    match obs with
    | .fires => (s, .ready (some ()))
    | .waits => (s, .pending)
  | none =>
    if s.fired then
      (s, .pending)
    else
      ({ s with fired := true }, .ready (some ()))

/-- Outputs of a sequence of `poll_next` calls on a `CustomStream`. -/
def customRunOuts (s : CustomStreamSt) : List TickObs → List (Poll (Option Unit))
  | [] => []
  | o :: os =>
    let r := customPollNext s o
    r.2 :: customRunOuts r.1 os

/-- `Custom::parse` input, after `remove_string_from_config` /
`remove_uint_from_config` extraction: the `command` string if present with the
right type, and the `interval` in whole seconds likewise. -/
structure CustomConfig : Type where
  command : Option String
  interval : Option Nat
deriving DecidableEq, Repr

/-- The parts of the built `Custom` panel the configuration determines:
the command string handed to `sh -c` and the optional interval duration. -/
structure CustomPanel : Type where
  commandStr : String
  duration : Option Nat
deriving DecidableEq, Repr

/-- `Custom::parse` followed by `CustomBuilder::build`: `_command_str` is
required (`.context("command must be initialized")?`), `duration` is the
flattened builder field, so exactly the parsed `interval` when present. -/
def customParse (t : CustomConfig) : Except String CustomPanel :=
  match t.command with
  | none => .error "`command` must be initialized"
  | some c => .ok ⟨c, t.interval⟩

/-! ## Pulseaudio panel (src/panels/pulseaudio.rs)

The spawned blocking worker runs `recv.lock().unwrap().recv()?` and returns
`Result<(Volume, bool)>`; joining it yields `Result<Result<(Volume, bool)>,
JoinError>`.  Volumes are naturals, both error types collapse to `Unit`.
The `live` field is ghost state recording the workers that have been spawned
by `task::spawn_blocking` and not yet harvested; the Rust code only ever
stores them in the single `handle` field. -/

/-- Return value of the spawned closure (`Result<(Volume, bool)>`). -/
abbrev PAWorkerResult := Except Unit (Nat × Bool)

/-- Result of joining the worker handle (`Result<Result<..>, JoinError>`). -/
abbrev PAJoinResult := Except Unit PAWorkerResult

/-- The map applied to the joined value:
`r.map(Result::ok).ok().flatten()`. -/
def paHarvest (r : PAJoinResult) : Option (Nat × Bool) :=
  ((Except.map Except.toOption r).toOption).join

/-- `Pulseaudio` poll-relevant state: the worker handle (by ghost id), a
fresh-id counter and the ghost list of outstanding workers. -/
structure PAState : Type where
  handle : Option Nat
  nextId : Nat
  live : List Nat
deriving DecidableEq, Repr

/-- What a poll observes about the stored handle: still running, or finished
with a given join result. -/
inductive PAObs : Type where
  | running
  | done (r : PAJoinResult)
deriving Repr

/-- `Pulseaudio::poll_next`: with a stored handle, check `is_finished()`; if
finished, `poll_unpin` the handle (ready), map the result, clear the handle;
otherwise stay `Pending`.  With no handle, `spawn_blocking` a fresh worker,
store it, and return `Pending`. -/
def paPollNext (s : PAState) (obs : PAObs) : PAState × Poll (Option (Nat × Bool)) :=
  match s.handle with
  | some h =>
    match obs with
    | .running => (s, .pending)
    | .done r => ({ s with handle := none, live := s.live.erase h }, .ready (paHarvest r))
  | none =>
    ({ handle := some s.nextId, nextId := s.nextId + 1, live := s.live ++ [s.nextId] },
      .pending)

/-- A freshly built `Pulseaudio` adapter (`handle: None` via builder default). -/
def paFresh : PAState := ⟨none, 0, []⟩

/-- Final state of a sequence of polls on a `Pulseaudio` adapter. -/
def paRun (s : PAState) : List PAObs → PAState
  | [] => s
  | o :: os => paRun (paPollNext s o).1 os

/-- Outputs of a sequence of polls on a `Pulseaudio` adapter. -/
def paRunOuts (s : PAState) : List PAObs → List (Poll (Option (Nat × Bool)))
  | [] => []
  | o :: os =>
    let r := paPollNext s o
    r.2 :: paRunOuts r.1 os

/-- An observation compatible with the sending half of the channel having
been dropped: any still-running worker, or a worker that finished with
`recv()` returning `Err` (the closure propagates it via `?`, the join itself
succeeds). -/
def paRecvDead : PAObs → Bool
  | .running => true
  | .done (.ok (.error ())) => true
  | .done _ => false

/-! ## XWorkspaces panel (src/panels/xworkspaces.rs) -/

/-- `XStream` poll-relevant state, with the same ghost worker accounting as
`PAState`; the worker handle is a `JoinHandle<()>` so no result is read. -/
structure XStreamSt : Type where
  handle : Option Nat
  nextId : Nat
  live : List Nat
deriving DecidableEq, Repr

/-- What a poll observes about the stored `XStream` worker handle. -/
inductive XObs : Type where
  | running
  | finished
deriving DecidableEq, Repr

/-- `XStream::poll_next`: with a stored handle, if `is_finished()` clear it
and return `Ready(Some(()))`, else `Pending`; with no handle,
`spawn_blocking` the event-waiting worker loop and return `Pending`. -/
def xsPollNext (s : XStreamSt) (obs : XObs) : XStreamSt × Poll (Option Unit) :=
  match s.handle with
  | some h =>
    match obs with
    | .running => (s, .pending)
    | .finished => ({ s with handle := none, live := s.live.erase h }, .ready (some ()))
  | none =>
    ({ handle := some s.nextId, nextId := s.nextId + 1, live := s.live ++ [s.nextId] },
      .pending)

/-- `XStream::new`: `handle: None`. -/
def xsFresh : XStreamSt := ⟨none, 0, []⟩

/-- Final state of a sequence of polls on an `XStream`. -/
def xsRun (s : XStreamSt) : List XObs → XStreamSt
  | [] => s
  | o :: os => xsRun (xsPollNext s o).1 os

/-- An X event as the worker loop inspects it: a `PropertyNotify` carrying
its atom, or any other event kind. -/
inductive XEvent : Type where
  | propertyNotify (atom : Nat)
  | otherEvent
deriving DecidableEq, Repr

/-- Result of `conn.wait_for_event()`. -/
abbrev XEventResult := Except Unit XEvent

/-- The worker loop's test: an `Ok` `PropertyNotify` whose atom is the
number, current, or names atom. -/
def atomMatches (numberAtom currentAtom namesAtom : Nat) (e : XEventResult) : Bool :=
  match e with
  | .ok (.propertyNotify a) => a == numberAtom || a == currentAtom || a == namesAtom
  | _ => false

/-- The spawned worker loop, run over the sequence of `wait_for_event`
results it observes: returns how many times it woke the scheduler and whether
it exited.  Every non-matching result is discarded and the loop continues. -/
def workerLoop (numberAtom currentAtom namesAtom : Nat) :
    List XEventResult → Nat × Bool
  | [] => (0, false)
  | e :: es =>
    if atomMatches numberAtom currentAtom namesAtom e then (1, true)
    else workerLoop numberAtom currentAtom namesAtom es

/-- State of `tokio_stream::once(()).chain(XStream::new(..))` as built in
`XWorkspaces::into_stream`: whether the `once` item has been yielded, plus
the `XStream` state. -/
structure XwsChainSt : Type where
  onceDone : Bool
  xs : XStreamSt
deriving DecidableEq, Repr

/-- The chained stream as `into_stream` constructs it. -/
def xwsChainFresh : XwsChainSt := ⟨false, xsFresh⟩

/-- `poll_next` of the chained stream: `Chain` polls the `once` stream first;
it yields `Ready(Some(()))` on the first poll, and only once it is exhausted
is the `XStream` polled at all. -/
def xwsChainPoll (c : XwsChainSt) (obs : XObs) : XwsChainSt × Poll (Option Unit) :=
  if c.onceDone then
    let r := xsPollNext c.xs obs
    (⟨true, r.1⟩, r.2)
  else
    (⟨true, c.xs⟩, .ready (some ()))

/-- Styling state of one workspace run in `XWorkspaces::draw`. -/
inductive WsStyle : Type where
  | active
  | nonempty
  | inactive
deriving DecidableEq, Repr

/-- The attribute choice made for workspace index `i`:
`if i == current { active } else if nonempty_set.contains(&i) { nonempty }
else { inactive }`. -/
def chooseStyle (current : Nat) (nonemptySet : List Nat) (i : Nat) : WsStyle :=
  if i = current then .active
  else if nonemptySet.contains i then .nonempty
  else .inactive

/-- The styles of the laid-out runs, one per workspace, in order
(`workspaces.into_iter().enumerate()`). -/
def layoutStyles (workspaces : List String) (current : Nat) (nonemptySet : List Nat) :
    List WsStyle :=
  (List.range workspaces.length).map (chooseStyle current nonemptySet)

/-- The reported total width:
`layouts.iter().map(|l| l.1.pixel_size().0 + self.padding).sum() - self.padding`,
with the pixel width of each run given by the layout engine as a function of
the text and the applied (style-dependent) font. -/
def totalWidth (measure : String → WsStyle → Int) (padding : Int)
    (workspaces : List String) (current : Nat) (nonemptySet : List Nat) : Int :=
  (List.map
      (fun p => measure p.2 (chooseStyle current nonemptySet p.1) + padding)
      workspaces.enum).sum
    - padding

/-- Sum of the runs' measured pixel widths alone. -/
def runWidthSum (measure : String → WsStyle → Int)
    (workspaces : List String) (current : Nat) (nonemptySet : List Nat) : Int :=
  (List.map (fun p => measure p.2 (chooseStyle current nonemptySet p.1)) workspaces.enum).sum

/-- `bytes.split(|&b| b == 0)` on a byte slice: splits at every zero byte,
yielding one (possibly empty) piece more than the number of zero bytes. -/
def splitOnZero : List Nat → List (List Nat)
  | [] => [[]]
  | b :: rest =>
    if b = 0 then [] :: splitOnZero rest
    else
      match splitOnZero rest with
      | [] => [[b]]
      | h :: t => (b :: h) :: t

/-- The byte string `"?"`. -/
def questionName : List Nat := [63]

/-- `get_workspaces` after the two property fetches: `number` is the value of
`_NET_NUMBER_OF_DESKTOPS`, `bytes` the raw `_NET_DESKTOP_NAMES` value; names
are the zero-split pieces, padded with `"?"` up to `number` when short. -/
def get_workspaces (number : Nat) (bytes : List Nat) : List (List Nat) :=
  let names := splitOnZero bytes
  if names.length < number then
    names ++ List.replicate (number - names.length) questionName
  else
    names

/-- The instant 12:34:56.700 local time, in nanoseconds since midnight. -/
def noonBugInstant : Nat := ((12 * 60 + 34) * 60 + 56) * nsPerSec + 700000000

/-! ## Helper lemmas -/

theorem customRunOuts_quiesced (os : List TickObs) :
    customRunOuts ⟨none, true⟩ os = List.replicate os.length Poll.pending := by
  induction os with
  | nil => rfl
  | cons o os ih => simp [customRunOuts, customPollNext, ih, List.replicate_succ]

theorem sum_map_add_const {α : Type} (l : List α) (f : α → Int) (p : Int) :
    (l.map fun a => f a + p).sum = (l.map f).sum + l.length * p := by
  induction l with
  | nil => simp
  | cons a l ih =>
    simp only [List.map_cons, List.sum_cons, List.length_cons, ih]
    push_cast
    ring

theorem paHarvest_recv_err : paHarvest (Except.ok (Except.error ())) = none := rfl

theorem paPollNext_live (s : PAState) (o : PAObs) (h : s.live = s.handle.toList) :
    (paPollNext s o).1.live = (paPollNext s o).1.handle.toList := by
  match hs : s.handle, o with
  | some w, .running => simpa [paPollNext, hs] using h
  | some w, .done r => simp [paPollNext, hs, h, hs]
  | none, o => simp [paPollNext, hs, h, hs]

theorem paRun_live (os : List PAObs) (s : PAState) (h : s.live = s.handle.toList) :
    (paRun s os).live = (paRun s os).handle.toList := by
  induction os generalizing s with
  | nil => exact h
  | cons o os ih => exact ih _ (paPollNext_live s o h)

theorem xsPollNext_live (s : XStreamSt) (o : XObs) (h : s.live = s.handle.toList) :
    (xsPollNext s o).1.live = (xsPollNext s o).1.handle.toList := by
  match hs : s.handle, o with
  | some w, .running => simpa [xsPollNext, hs] using h
  | some w, .finished => simp [xsPollNext, hs, h, hs]
  | none, o => simp [xsPollNext, hs, h, hs]

theorem xsRun_live (os : List XObs) (s : XStreamSt) (h : s.live = s.handle.toList) :
    (xsRun s os).live = (xsRun s os).handle.toList := by
  induction os generalizing s with
  | nil => exact h
  | cons o os ih => exact ih _ (xsPollNext_live s o h)

theorem option_toList_length_le {α : Type} (o : Option α) : o.toList.length ≤ 1 := by
  cases o <;> simp

theorem paRunOuts_no_signal (os : List PAObs) (s : PAState)
    (hos : ∀ o ∈ os, paRecvDead o = true) :
    ∀ out ∈ paRunOuts s os, ∀ v, out ≠ Poll.ready (some v) := by
  induction os generalizing s with
  | nil => intro out hout; simp [paRunOuts] at hout
  | cons o os ih =>
    intro out hout v
    have ho : paRecvDead o = true := hos o (List.mem_cons_self o os)
    have hos' : ∀ o' ∈ os, paRecvDead o' = true := fun o' h' =>
      hos o' (List.mem_cons_of_mem o h')
    simp only [paRunOuts, List.mem_cons] at hout
    rcases hout with hout | hout
    · subst hout
      match hs : s.handle, o, ho with
      | some w, .running, _ => simp [paPollNext, hs]
      | some w, .done (.ok (.error ())), _ => simp [paPollNext, hs, paHarvest_recv_err]
      | none, o, _ => simp [paPollNext, hs]
    · exact ih _ hos' out hout v

/-! ## Claim theorems -/

/-- C1: the claim says every `Precision::tick()` duration lands exactly on the
next unit boundary, with Minutes giving 3.3 s at 12:34:56.700.  The code
disagrees: at that instant Minutes returns 4 s (landing 0.7 s past the minute
boundary), Hours lands 56.7 s past the hour boundary, Days lands 1 h 56.7 s
past midnight (at 01:00:56.7 the next day); only Seconds lands exactly on its
boundary. -/
theorem clock_tick_misses_boundary :
    minutesTickSecs (secondOf noonBugInstant) = 4 ∧
    nextBoundary (unitNs .minutes) noonBugInstant - noonBugInstant = 3300000000 ∧
    noonBugInstant + tickNs .minutes noonBugInstant =
      nextBoundary (unitNs .minutes) noonBugInstant + 700000000 ∧
    noonBugInstant + tickNs .hours noonBugInstant =
      nextBoundary (unitNs .hours) noonBugInstant + 56700000000 ∧
    noonBugInstant + tickNs .days noonBugInstant =
      nextBoundary (unitNs .days) noonBugInstant + 3656700000000 ∧
    noonBugInstant + tickNs .seconds noonBugInstant =
      nextBoundary (unitNs .seconds) noonBugInstant := by
  decide

/-- C2: for every poll sequence of a `Pulseaudio` adapter and of an `XStream`
adapter, at most one spawned blocking worker is outstanding at any time:
starting from the freshly built adapter the ghost list of live workers never
exceeds one element, and a poll that finds a stored handle creates no new
worker (the id counter is untouched); a poll that finds a still-running
worker leaves the state entirely unchanged. -/
theorem adapters_at_most_one_worker (pos : List PAObs) (xos : List XObs)
    (sp : PAState) (op : PAObs) (sx : XStreamSt) (ox : XObs)
    (hp : sp.handle.isSome = true) (hx : sx.handle.isSome = true)
    (hop : op = PAObs.running) (hox : ox = XObs.running) :
    (paRun paFresh pos).live.length ≤ 1 ∧
    (xsRun xsFresh xos).live.length ≤ 1 ∧
    (paPollNext sp op).1.nextId = sp.nextId ∧
    (xsPollNext sx ox).1.nextId = sx.nextId ∧
    (paPollNext sp op).1 = sp ∧
    (xsPollNext sx ox).1 = sx := by
  obtain ⟨wp, hwp⟩ := Option.isSome_iff_exists.mp hp
  obtain ⟨wx, hwx⟩ := Option.isSome_iff_exists.mp hx
  subst hop hox
  refine ⟨?_, ?_, ?_, ?_, ?_, ?_⟩
  · rw [paRun_live pos paFresh rfl]
    exact option_toList_length_le _
  · rw [xsRun_live xos xsFresh rfl]
    exact option_toList_length_le _
  · simp [paPollNext, hwp]
  · simp [xsPollNext, hwx]
  · simp [paPollNext, hwp]
  · simp [xsPollNext, hwx]

/-- Witness for C2 at a concrete poll history and a concrete occupied state. -/
theorem adapters_at_most_one_worker_witness :
    (paRun paFresh [PAObs.running, PAObs.running]).live.length ≤ 1 ∧
    (xsRun xsFresh [XObs.running, XObs.finished]).live.length ≤ 1 ∧
    (paPollNext ⟨some 0, 1, [0]⟩ PAObs.running).1.nextId = (⟨some 0, 1, [0]⟩ : PAState).nextId ∧
    (xsPollNext ⟨some 0, 1, [0]⟩ XObs.running).1.nextId = (⟨some 0, 1, [0]⟩ : XStreamSt).nextId ∧
    (paPollNext ⟨some 0, 1, [0]⟩ PAObs.running).1 = (⟨some 0, 1, [0]⟩ : PAState) ∧
    (xsPollNext ⟨some 0, 1, [0]⟩ XObs.running).1 = (⟨some 0, 1, [0]⟩ : XStreamSt) :=
  adapters_at_most_one_worker [PAObs.running, PAObs.running] [XObs.running, XObs.finished]
    ⟨some 0, 1, [0]⟩ PAObs.running ⟨some 0, 1, [0]⟩ XObs.running rfl rfl rfl rfl

/-- C3: a `CustomStream` built with no interval yields exactly one signal:
the first poll returns `Ready(Some(()))` and every later poll, whatever the
environment does, returns `Pending` — the stream stays alive but idle. -/
theorem custom_single_shot_once (o : TickObs) (os : List TickObs) :
    customRunOuts (customStreamNew none) (o :: os) =
      Poll.ready (some ()) :: List.replicate os.length Poll.pending := by
  simp [customRunOuts, customStreamNew, customPollNext, customRunOuts_quiesced]

/-- Witness for C3: a three-poll history yields the single signal then idles. -/
theorem custom_single_shot_once_witness :
    customRunOuts (customStreamNew none) [TickObs.waits, TickObs.fires, TickObs.waits] =
      [Poll.ready (some ()), Poll.pending, Poll.pending] :=
  custom_single_shot_once TickObs.waits [TickObs.fires, TickObs.waits]

/-- C4: if the sending half of the channel is dropped, the worker's `recv()`
errors, the closure propagates the error, and the poll that harvests it
returns `Ready(None)`; under any further polling in which every finished
worker reports the receive error, no `Ready(Some(..))` item is ever produced. -/
theorem pulseaudio_recv_error_ends_stream (s : PAState) (w : Nat) (os : List PAObs)
    (h : s.handle = some w) (hos : ∀ o ∈ os, paRecvDead o = true) :
    paPollNext s (PAObs.done (Except.ok (Except.error ()))) =
      ({ s with handle := none, live := s.live.erase w }, Poll.ready none) ∧
    (∀ out ∈ paRunOuts s os, ∀ v, out ≠ Poll.ready (some v)) := by
  constructor
  · simp [paPollNext, h, paHarvest_recv_err]
  · exact paRunOuts_no_signal os s hos

/-- Witness for C4 at a concrete adapter state and poll history. -/
theorem pulseaudio_recv_error_ends_stream_witness :
    paPollNext ⟨some 0, 1, [0]⟩ (PAObs.done (Except.ok (Except.error ()))) =
      (⟨none, 1, []⟩, Poll.ready none) :=
  (pulseaudio_recv_error_ends_stream ⟨some 0, 1, [0]⟩ 0
    [PAObs.running, PAObs.done (Except.ok (Except.error ()))] rfl
    (by intro o ho; fin_cases ho <;> rfl)).1

/-- C5: with workspaces `["web","code","chat"]`, current index 1 and nonempty
set `{0,1}`, the draw produces exactly three runs styled nonempty, active,
inactive in that order; and for every workspace list the reported total width
is the sum of the runs' measured widths plus one padding per run minus one
trailing padding, i.e. the width sum plus `(n-1) * padding`. -/
theorem xworkspaces_draw_runs (measure : String → WsStyle → Int) (padding : Int)
    (workspaces : List String) (current : Nat) (nonemptySet : List Nat) :
    layoutStyles ["web", "code", "chat"] 1 [0, 1] =
      [WsStyle.nonempty, WsStyle.active, WsStyle.inactive] ∧
    (layoutStyles ["web", "code", "chat"] 1 [0, 1]).length = 3 ∧
    totalWidth measure padding workspaces current nonemptySet =
      runWidthSum measure workspaces current nonemptySet +
        ((workspaces.length : Int) - 1) * padding := by
  refine ⟨by decide, by decide, ?_⟩
  unfold totalWidth runWidthSum
  rw [sum_map_add_const workspaces.enum
    (fun p => measure p.2 (chooseStyle current nonemptySet p.1)) padding]
  rw [List.enum_length]
  ring

/-- Witness for C5 at a concrete measurement function and two workspaces. -/
theorem xworkspaces_draw_runs_witness :
    layoutStyles ["web", "code", "chat"] 1 [0, 1] =
      [WsStyle.nonempty, WsStyle.active, WsStyle.inactive] ∧
    (layoutStyles ["web", "code", "chat"] 1 [0, 1]).length = 3 ∧
    totalWidth (fun _ _ => 10) 2 ["a", "b"] 0 [] =
      runWidthSum (fun _ _ => 10) ["a", "b"] 0 [] +
        ((["a", "b"].length : Int) - 1) * 2 :=
  xworkspaces_draw_runs (fun _ _ => 10) 2 ["a", "b"] 0 []

/-- C6: the `XStream` worker loop wakes the scheduler and exits exactly when
it reads an `Ok` `PropertyNotify` event whose atom is one of the three
watched atoms; every other `wait_for_event` result (wrong atom, other event
kind, or an error) is discarded and the loop continues without waking. -/
theorem xstream_worker_loop_filter (na ca nsa : Nat) (evs : List XEventResult)
    (e : XEventResult) :
    workerLoop na ca nsa evs =
      (if evs.any (atomMatches na ca nsa) then (1, true) else (0, false)) ∧
    (atomMatches na ca nsa e = true ↔
      ∃ a, e = Except.ok (XEvent.propertyNotify a) ∧ (a = na ∨ a = ca ∨ a = nsa)) := by
  constructor
  · induction evs with
    | nil => rfl
    | cons ev evs ih =>
      by_cases hm : atomMatches na ca nsa ev = true
      · simp [workerLoop, hm]
      · simp only [Bool.not_eq_true] at hm
        simp [workerLoop, hm, ih]
  · match e with
    | .error () => simp [atomMatches]
    | .ok (.propertyNotify a) => simp [atomMatches, or_assoc]
    | .ok .otherEvent => simp [atomMatches]

/-- Witness for C6 at concrete atoms and a concrete event history. -/
theorem xstream_worker_loop_filter_witness :
    workerLoop 1 2 3
        [Except.error (), Except.ok XEvent.otherEvent,
          Except.ok (XEvent.propertyNotify 2)] =
      (if ([Except.error (), Except.ok XEvent.otherEvent,
          Except.ok (XEvent.propertyNotify 2)] : List XEventResult).any (atomMatches 1 2 3)
        then (1, true) else (0, false)) ∧
    (atomMatches 1 2 3 (Except.ok (XEvent.propertyNotify 2)) = true ↔
      ∃ a, (Except.ok (XEvent.propertyNotify 2) : XEventResult) =
          Except.ok (XEvent.propertyNotify a) ∧ (a = 1 ∨ a = 2 ∨ a = 3)) :=
  xstream_worker_loop_filter 1 2 3
    [Except.error (), Except.ok XEvent.otherEvent, Except.ok (XEvent.propertyNotify 2)]
    (Except.ok (XEvent.propertyNotify 2))

/-- C7: whenever `ClockStream::poll_next` returns `Ready` it re-arms the
interval to the current instant plus a freshly computed `get_duration()`
value, and it returns `Ready` exactly when the deadline has been reached;
whenever it returns `Pending` the state (hence the deadline) is unchanged. -/
theorem clockstream_rearms (g : Nat → Nat) (s : ClockStreamSt) (now : Nat)
    (hready : s.deadline ≤ now) :
    (clockPollNext g s now).2 = Poll.ready now ∧
    (clockPollNext g s now).1.deadline = now + g now ∧
    (∀ s' : ClockStreamSt, ∀ t : Nat, ¬ s'.deadline ≤ t →
      clockPollNext g s' t = (s', Poll.pending)) := by
  refine ⟨?_, ?_, ?_⟩
  · simp [clockPollNext, hready]
  · simp [clockPollNext, hready]
  · intro s' t hlt
    simp [clockPollNext, hlt]

/-- Witness for C7: a ready poll at deadline 3, time 5 re-arms to 5 + 7. -/
theorem clockstream_rearms_witness :
    (clockPollNext (fun _ => 7) ⟨3⟩ 5).2 = Poll.ready 5 ∧
    (clockPollNext (fun _ => 7) ⟨3⟩ 5).1.deadline = 5 + 7 ∧
    (∀ s' : ClockStreamSt, ∀ t : Nat, ¬ s'.deadline ≤ t →
      clockPollNext (fun _ => 7) s' t = (s', Poll.pending)) :=
  clockstream_rearms (fun _ => 7) ⟨3⟩ 5 (by decide)

/-- C8: `Custom::parse` fails exactly when the configuration lacks the
required `command` string, and with `command` present and `interval` absent
it succeeds with `duration = None` (single-shot mode). -/
theorem custom_parse_command_required (t u : CustomConfig) (c : String)
    (hc : u.command = some c) (hi : u.interval = none) :
    ((customParse t).isOk = false ↔ t.command = none) ∧
    customParse u = Except.ok ⟨c, none⟩ := by
  constructor
  · cases ht : t.command <;> simp [customParse, ht, Except.isOk, Except.toBool]
  · simp [customParse, hc, hi]

/-- Witness for C8: a configuration with no `command` (whose parse errors, per
the iff) and the configuration `command = "echo hi"`, no interval (whose parse
succeeds in single-shot mode). -/
theorem custom_parse_command_required_witness :
    ((customParse ⟨none, some 5⟩).isOk = false ↔
      (⟨none, some 5⟩ : CustomConfig).command = none) ∧
    customParse ⟨some "echo hi", none⟩ = Except.ok ⟨"echo hi", none⟩ :=
  custom_parse_command_required ⟨none, some 5⟩ ⟨some "echo hi", none⟩ "echo hi" rfl rfl

/-- C9: the workspace-list panel's activated stream is `once(())` chained in
front of the `XStream`: its very first poll yields `Ready(Some(()))` while
the `XStream` half is still fresh — no worker spawned and no X event
consumed. -/
theorem xworkspaces_initial_signal (obs : XObs) :
    xwsChainPoll xwsChainFresh obs = (⟨true, xsFresh⟩, Poll.ready (some ())) ∧
    xsFresh.handle = none ∧
    xsFresh.live = [] := by
  exact ⟨rfl, rfl, rfl⟩

/-- Witness for C9 at a concrete environment observation. -/
theorem xworkspaces_initial_signal_witness :
    xwsChainPoll xwsChainFresh XObs.running = (⟨true, xsFresh⟩, Poll.ready (some ())) ∧
    xsFresh.handle = none ∧
    xsFresh.live = [] :=
  xworkspaces_initial_signal XObs.running

/-- C10: `get_workspaces` returns at least `number` names: when the zero-split
of the names property has fewer than `number` pieces the result is exactly
those pieces padded with `"?"` entries up to length `number`, and when it has
at least `number` pieces the result is the pieces unchanged (no truncation). -/
theorem get_workspaces_padding (number : Nat) (bytes : List Nat) :
    number ≤ (get_workspaces number bytes).length ∧
    (get_workspaces number bytes).length = max (splitOnZero bytes).length number ∧
    ((splitOnZero bytes).length < number →
      get_workspaces number bytes =
        splitOnZero bytes ++
          List.replicate (number - (splitOnZero bytes).length) questionName) ∧
    (number ≤ (splitOnZero bytes).length → get_workspaces number bytes = splitOnZero bytes) := by
  by_cases h : (splitOnZero bytes).length < number
  · refine ⟨?_, ?_, fun _ => ?_, fun hn => absurd h (by omega)⟩ <;>
      simp [get_workspaces, h] <;> omega
  · refine ⟨?_, ?_, fun hlt => absurd hlt h, fun _ => ?_⟩ <;>
      simp [get_workspaces, h] <;> omega

/-- Witness for C10: three names requested as five get padded with two `"?"`. -/
theorem get_workspaces_padding_witness :
    get_workspaces 5 [1, 0, 2, 0, 3] =
      splitOnZero [1, 0, 2, 0, 3] ++
        List.replicate (5 - (splitOnZero [1, 0, 2, 0, 3]).length) questionName :=
  (get_workspaces_padding 5 [1, 0, 2, 0, 3]).2.2.1 (by decide)

end Omnibars
